import Mathlib

set_option maxRecDepth 100000

/-!
Verification of the CHINT DTSU666 Modbus RTU sniffer scripts
(`modbusSniffer.py` and `modbusSnifferV2.py`).

Modelling conventions used throughout this development:

* Byte strings are `List Nat`, one element per byte value.
* Python floats are modelled exactly.  Every IEEE-754 binary32 bit pattern
  denotes NaN, a signed infinity, or an exact rational number (`F32`), and
  the arithmetic the scripts perform on decoded register values
  (comparisons with decimal literals, decimal rounding, scaling) is carried
  out in `ℚ`.  For every comparison appearing in the sources this exact
  model agrees with Python's double semantics: the literals `1e10`, `1e6`,
  `500`, `0.5` and so on are exactly representable as doubles, and no
  binary32 value (and no ratio of chunk counts) separates `1e-10`, `0.3` or
  `0.4` from the double nearest to it.
* Python `round(x, 3)` is modelled as exact round-half-to-even to a
  multiple of `1/1000`.
* The dictionaries built by the scripts always have pairwise distinct keys
  and are modelled as ordered association lists; values printed with
  `print` that feed no computation are either dropped or, where a claim is
  about a reported diagnostic, modelled as explicit `Diag` events.
-/

/-- Modbus CRC16 update for one input byte: the inner 8-iteration shift
loop of `crc16` in `modbusSnifferV2.py`. -/
def crcByteStep (crc b : Nat) : Nat :=
  (List.range 8).foldl
    (fun c _ => if c % 2 = 1 then (c / 2) ^^^ 0xA001 else c / 2)
    (crc ^^^ b)

/-- Modbus CRC16 of a byte string (`crc16` in `modbusSnifferV2.py`),
returned least-significant byte first as by `crc.to_bytes(2, 'little')`. -/
def crc16 (data : List Nat) : List Nat :=
  let c := data.foldl crcByteStep 0xFFFF
  [c % 256, c / 256 % 256]

/-- Embedding of `is_valid_crc` in `modbusSnifferV2.py`: a frame shorter
than `MIN_FRAME_SIZE = 6` is rejected, otherwise the trailing two bytes are
compared with the CRC16 of the remaining prefix. -/
def is_valid_crc (frame : List Nat) : Bool :=
  if frame.length < 6 then false
  else frame.drop (frame.length - 2) == crc16 (frame.take (frame.length - 2))

/-- Exact denotation of an IEEE-754 binary32 bit pattern: NaN, a signed
infinity, or an exact rational value. -/
inductive F32 where
  | nan : F32
  | inf (neg : Bool) : F32
  | val (q : ℚ) : F32
deriving DecidableEq, Repr

/-- Decode a 32-bit pattern as a binary32 value, exactly: a normal number
`(2^23 + f) * 2^(e-150)`, a denormal `f * 2^(1-150)`, an infinity or NaN. -/
def f32OfBits (bits : Nat) : F32 :=
  let sgn : Nat := bits / 2 ^ 31 % 2
  let e : Nat := bits / 2 ^ 23 % 256
  let f : Nat := bits % 2 ^ 23
  if e = 255 then
    if f = 0 then F32.inf (sgn == 1) else F32.nan
  else
    let mag : ℚ :=
      if e = 0 then (f : ℚ) * 2 ^ 1 / 2 ^ 150
      else ((2 ^ 23 + f : Nat) : ℚ) * 2 ^ e / 2 ^ 150
    F32.val (if sgn = 1 then -mag else mag)

/-- Big-endian 4-byte chunk to binary32 value (`struct.unpack(">f", ...)`;
it never fails on a 4-byte chunk, and every embedded call site passes
exactly 4 bytes, so the catch-all is unreachable). -/
def f32OfBytes : List Nat → F32
  | [b0, b1, b2, b3] => f32OfBits (((b0 * 256 + b1) * 256 + b2) * 256 + b3)
  | _ => F32.nan

/-- Round-half-to-even to an integer, the rounding mode of Python `round`. -/
def roundHalfEven (x : ℚ) : ℤ :=
  let n := x.floor
  let r := x - n
  if r < 1 / 2 then n
  else if 1 / 2 < r then n + 1
  else if n % 2 = 0 then n else n + 1

/-- Exact model of Python `round(x, 3)` on the exact value of a float. -/
def pyRound3 (q : ℚ) : ℚ := (roundHalfEven (q * 1000) : ℚ) / 1000

/-- Python `round(x, 3)` lifted to `F32`: NaN and infinities round to
themselves. -/
def pyRound3F : F32 → F32
  | F32.val q => F32.val (pyRound3 q)
  | x => x

/-- Embedding of `parse_float32_be` in `modbusSniffer.py`. -/
def parse_float32_be (data : List Nat) : Option F32 :=
  if data.length = 4 then some (f32OfBytes data) else none

/-- Embedding of `parse_sniffer_hex` in `modbusSniffer.py`, acting on the
byte string denoted by the hex input.  The data is consumed in 4-byte
strides; a trailing chunk shorter than 4 bytes hits the `break` and is
dropped; each full chunk is decoded big-endian and rounded to 3 decimals. -/
def parse_sniffer_hex : List Nat → List F32
  | b0 :: b1 :: b2 :: b3 :: rest =>
    (match parse_float32_be [b0, b1, b2, b3] with
     | some v => [pyRound3F v]
     | none => []) ++ parse_sniffer_hex rest
  | _ => []

/-- Embedding of `parse_modbus_float_inverse` in `modbusSniffer.py`: select
the 4-byte chunk (directly, or at `offset` in a longer byte string), swap
the two 16-bit halves (`chunk[2:4] + chunk[0:2]`), interpret the result as
a big-endian binary32, reject NaN, infinity and values outside the open
band `(-1e10, 1e10)`, and snap nonzero values inside `(-1e-10, 1e-10)` to
exactly zero. -/
def parse_modbus_float_inverse (data : List Nat) (offset : Nat) : Option ℚ :=
  let chunk? :=
    if offset = 0 ∧ data.length = 4 then some data
    else if offset + 4 ≤ data.length then some ((data.drop offset).take 4)
    else none
  match chunk? with
  | none => none
  | some chunk =>
    match f32OfBytes (chunk.drop 2 ++ chunk.take 2) with
    | F32.nan => none
    | F32.inf _ => none
    | F32.val q =>
      if ¬(-(10 ^ 10 : ℚ) < q ∧ q < 10 ^ 10) then none
      else if (-(1 / 10 ^ 10 : ℚ) < q ∧ q < 1 / 10 ^ 10) ∧ q ≠ 0 then some 0
      else some q

/-- Embedding of the protocol-marker cleaning loop at the start of
`process_modbus_payload` in `modbusSniffer.py`: a `9F 03`/`9F 04` pair
skips `min(8, remaining)` bytes, a plausible slave-response header
(non-`9F` address, function `03`/`04`, positive even byte count at most
250, needing at least three remaining bytes) skips
`min(3 + byte_count + 2, remaining)` bytes, any other byte is kept. -/
def cleanGo : Nat → List Nat → List Nat
  | _, [] => []
  | 0, _ => []
  | _ + 1, [a] => [a]
  | fuel + 1, [a, b] =>
    if a = 0x9F ∧ (b = 3 ∨ b = 4) then []
    else a :: cleanGo fuel [b]
  | fuel + 1, a :: b :: c :: rest =>
    if a = 0x9F ∧ (b = 3 ∨ b = 4) then cleanGo fuel ((a :: b :: c :: rest).drop 8)
    else if a ≠ 0x9F ∧ (b = 3 ∨ b = 4) ∧ 0 < c ∧ c % 2 = 0 ∧ c ≤ 250 then
      cleanGo fuel ((a :: b :: c :: rest).drop (3 + c + 2))
    else a :: cleanGo fuel (b :: c :: rest)

/-- The cleaning loop itself.  Every `cleanGo` step consumes at least one
byte, so a fuel equal to the payload length is never exhausted and the
`0, _ :: _` fuel case is unreachable. -/
def cleanPayload (payload : List Nat) : List Nat :=
  cleanGo payload.length payload

/-- The register data format chosen by `process_modbus_payload`. -/
inductive DataFormat where
  | float32 : DataFormat
  | int16 : DataFormat
deriving DecidableEq, Repr

/-- The plausibility disjunction the scripts use to score decoded floats
(voltage, current, frequency, power factor or power band). -/
def plausValue (v : ℚ) : Bool :=
  decide ((0 ≤ v ∧ v ≤ 500) ∨ (0 ≤ v ∧ v ≤ 100) ∨ (45 ≤ v ∧ v ≤ 65) ∨
    (-1 ≤ v ∧ v ≤ 1) ∨ (-50000 ≤ v ∧ v ≤ 50000))

/-- Valid/plausible chunk counts computed by the float32 auto-detection
loop of `process_modbus_payload` (first component: values that decode and
lie in `(-1e6, 1e6)`; second: those also plausible). -/
def floatScores (cleaned : List Nat) : Nat × Nat :=
  (List.range (cleaned.length / 4)).foldl
    (fun acc i =>
      match parse_modbus_float_inverse ((cleaned.drop (4 * i)).take 4) 0 with
      | some v =>
        if -(10 ^ 6 : ℚ) < v ∧ v < 10 ^ 6 then
          (acc.1 + 1, acc.2 + if plausValue v then 1 else 0)
        else acc
      | none => acc)
    (0, 0)

/-- Big-endian 16-bit decode of consecutive byte pairs: the `int16` branch
of `process_modbus_payload` (a trailing odd byte is ignored). -/
def int16Decode (data : List Nat) : List ℚ :=
  (List.range (data.length / 2)).map
    (fun i => ((data.getD (2 * i) 0 * 256 + data.getD (2 * i + 1) 0 : Nat) : ℚ))

/-- Embedding of `process_modbus_payload` in `modbusSniffer.py` (the
`debug` parameter only controls printing and is dropped): clean the
payload of protocol markers, pick the data format — forced, or
auto-detected from the plausibility/validity ratios when the cleaned
length is a multiple of 4, `int16` otherwise — and decode in 4-byte
strides (float32, invalid chunks become `0.0`) or 2-byte strides
(int16). -/
def process_modbus_payload (payload : List Nat) (force_format : Option DataFormat) :
    List ℚ :=
  if payload.length < 2 then []
  else
    let cleaned := cleanPayload payload
    let fmt :=
      match force_format with
      | some f => f
      | none =>
        if cleaned.length % 4 = 0 then
          let total := cleaned.length / 4
          let scores := floatScores cleaned
          let validPct : ℚ := if total = 0 then 0 else (scores.1 : ℚ) / total
          let plausPct : ℚ := if total = 0 then 0 else (scores.2 : ℚ) / total
          if (3 / 10 : ℚ) ≤ plausPct ∨ (1 / 2 : ℚ) ≤ validPct then DataFormat.float32
          else DataFormat.int16
        else DataFormat.int16
    match fmt with
    | DataFormat.float32 =>
      (List.range (cleaned.length / 4)).map
        (fun i =>
          let chunk := (cleaned.drop (4 * i)).take 4
          if chunk.take 2 = [0x9F, 0x03] ∨ chunk.take 2 = [0x9F, 0x04] then (0 : ℚ)
          else
            match parse_modbus_float_inverse chunk 0 with
            | none => 0
            | some v => pyRound3 v)
    | DataFormat.int16 => int16Decode cleaned

/-- The register/label table `REGISTER_MAP` of `modbusSniffer.py`. -/
def REGISTER_MAP : List (Nat × String) :=
  [(0x2000, "Uab"), (0x2002, "Ubc"), (0x2004, "Uca"), (0x2006, "Ua"),
   (0x2008, "Ub"), (0x200A, "Uc"), (0x200C, "Ia"), (0x200E, "Ib"),
   (0x2010, "Ic"), (0x2012, "Pt"), (0x2014, "Pa"), (0x2016, "Pb"),
   (0x2018, "Pc"), (0x201A, "Qt"), (0x201C, "Qa"), (0x201E, "Qb"),
   (0x2020, "Qc"), (0x202A, "PFt"), (0x202C, "PFa"), (0x202E, "PFb"),
   (0x2030, "PFc"), (0x2044, "Freq")]

/-- The label list `LABELS` of `modbusSniffer.py`. -/
def LABELS : List String :=
  ["Uab", "Ubc", "Uca", "Ua", "Ub", "Uc", "Ia", "Ib", "Ic",
   "Pt", "Pa", "Pb", "Pc", "Qt", "Qa", "Qb", "Qc",
   "PFt", "PFa", "PFb", "PFc", "Freq"]

/-- The table `SCALING_FACTORS` of `modbusSniffer.py`. -/
def SCALING_FACTORS : List (String × ℚ) :=
  [("Uab", 1 / 10), ("Ubc", 1 / 10), ("Uca", 1 / 10),
   ("Ua", 1 / 10), ("Ub", 1 / 10), ("Uc", 1 / 10),
   ("Ia", 1), ("Ib", 1), ("Ic", 1),
   ("Pt", 1), ("Pa", 1), ("Pb", 1), ("Pc", 1),
   ("Qt", 1), ("Qa", 1), ("Qb", 1), ("Qc", 1),
   ("PFt", 1), ("PFa", 1), ("PFb", 1), ("PFc", 1),
   ("Freq", 1)]

/-- Uppercase hexadecimal digit character. -/
def hexDigitChar (n : Nat) : Char :=
  if n < 10 then Char.ofNat (48 + n) else Char.ofNat (55 + n)

def hexCharsGo : Nat → Nat → List Char
  | _, 0 => []
  | 0, _ => []
  | fuel + 1, n + 1 => hexCharsGo fuel ((n + 1) / 16) ++ [hexDigitChar ((n + 1) % 16)]

/-- Uppercase hexadecimal digit characters of a number (empty for zero).
A number has at most as many hex digits as its value, so the fuel is never
exhausted. -/
def hexChars (n : Nat) : List Char := hexCharsGo n n

/-- Python `f"Register{addr:04X}"`: the generic register name, an
uppercase-hex address zero-padded to at least four digits. -/
def mkRegisterKey (addr : Nat) : String :=
  let ds := if addr = 0 then ['0'] else hexChars addr
  String.mk ("Register".data ++ (List.replicate (4 - ds.length) '0' ++ ds))

/-- Does the second character list start with the first one?  This is the
comparison performed by Python `str.startswith`. -/
def charListHasStart : List Char → List Char → Bool
  | [], _ => true
  | _ :: _, [] => false
  | p :: ps, c :: cs => p == c && charListHasStart ps cs

/-- Python `key.startswith("Register")` as used by the scripts. -/
def startsWithRegister (k : String) : Bool :=
  charListHasStart "Register".data k.data

/-- Label position used as mapping origin:
`LABELS.index(l) if l in LABELS else 0` in `map_values_to_labels`. -/
def labelStartIndex (lbl : String) : Nat :=
  if LABELS.contains lbl then LABELS.indexOf lbl else 0

/-- Scaling-factor lookup `SCALING_FACTORS.get(label, 1.0)`. -/
def lookupScale (lbl : String) : ℚ := (SCALING_FACTORS.lookup lbl).getD 1

/-- Embedding of `map_values_to_labels` in `modbusSniffer.py`.  All keys
this function produces are pairwise distinct, so the Python dict is the
ordered list of its entries. -/
def map_values_to_labels (values : List ℚ) (start_register : Nat) :
    List (String × ℚ) :=
  match REGISTER_MAP.lookup start_register with
  | some start_label =>
    values.enum.map
      (fun p =>
        if h : labelStartIndex start_label + p.1 < LABELS.length then
          let label := LABELS.get ⟨labelStartIndex start_label + p.1, h⟩
          (label, pyRound3 (p.2 * lookupScale label))
        else (mkRegisterKey (start_register + p.1 * 2), pyRound3 p.2))
  | none =>
    values.enum.map
      (fun p => (mkRegisterKey (start_register + p.1 * 2), pyRound3 p.2))

/-- Diagnostic events: the warnings the scripts print while continuing to
run (they are never raised as errors). -/
inductive Diag where
  | implausible (key : String) (value lo hi : ℚ) : Diag
  | lengthMismatch (byteCount expected : Nat) : Diag
  | mismatchAbort (byteCount expected : Nat) : Diag
  | floatBlockInvalid : Diag
deriving DecidableEq, Repr

/-- The table `plausibility_ranges` of `apply_plausibility_check`. -/
def plausibility_ranges : List (String × (ℚ × ℚ)) :=
  [("Uab", (0, 500)), ("Ubc", (0, 500)), ("Uca", (0, 500)),
   ("Ua", (0, 500)), ("Ub", (0, 500)), ("Uc", (0, 500)),
   ("Ia", (0, 100)), ("Ib", (0, 100)), ("Ic", (0, 100)),
   ("Pt", (-50000, 50000)), ("Pa", (-50000, 50000)),
   ("Pb", (-50000, 50000)), ("Pc", (-50000, 50000)),
   ("Qt", (-50000, 50000)), ("Qa", (-50000, 50000)),
   ("Qb", (-50000, 50000)), ("Qc", (-50000, 50000)),
   ("PFt", (-1, 1)), ("PFa", (-1, 1)), ("PFb", (-1, 1)), ("PFc", (-1, 1)),
   ("Freq", (45, 65))]

/-- Per-entry behaviour of `apply_plausibility_check`: generic
`Register...` names pass unchecked, labels absent from the table get the
default band `(-inf, inf)` and always pass, and an out-of-band value is
replaced by `0.0` together with a printed warning, modelled as a `Diag`
event. -/
def checkEntry (k : String) (v : ℚ) : ℚ × Option Diag :=
  if startsWithRegister k then (v, none)
  else
    match plausibility_ranges.lookup k with
    | none => (v, none)
    | some (lo, hi) =>
      if lo ≤ v ∧ v ≤ hi then (v, none) else (0, some (Diag.implausible k v lo hi))

/-- Embedding of `apply_plausibility_check` in `modbusSniffer.py`; the
second component collects the warnings printed for substituted values. -/
def apply_plausibility_check (kvs : List (String × ℚ)) :
    List (String × ℚ) × List Diag :=
  (kvs.map (fun p => (p.1, (checkEntry p.1 p.2).1)),
   kvs.filterMap (fun p => (checkEntry p.1 p.2).2))

/-- Embedding of `validate_float_block` in `modbusSniffer.py` (the
`contains_markers` scan and everything after the first `return` only feed
debug prints or are dead code and carry no data flow). -/
def validate_float_block (data : List Nat) (minValidPct : ℚ) : Bool :=
  if data.length < 8 ∨ data.length % 4 ≠ 0 then false
  else
    let total := data.length / 4
    let counts :=
      (List.range total).foldl
        (fun acc i =>
          let chunk := (data.drop (4 * i)).take 4
          if chunk.getD 0 0 = 0x9F ∧ (chunk.getD 1 0 = 3 ∨ chunk.getD 1 0 = 4) then acc
          else
            match f32OfBytes (chunk.drop 2 ++ chunk.take 2) with
            | F32.val v =>
              if -(10 ^ 6 : ℚ) < v ∧ v < 10 ^ 6 then
                (acc.1 + 1, acc.2 + if plausValue v then 1 else 0)
              else acc
            | _ => acc)
        ((0, 0) : Nat × Nat)
    let validPct : ℚ := if total = 0 then 0 else (counts.1 : ℚ) / total
    let plausPct : ℚ := if total = 0 then 0 else (counts.2 : ℚ) / total
    decide (minValidPct ≤ plausPct ∨ (2 / 5 : ℚ) ≤ validPct)

/-- Absolute difference of two naturals (`abs(a - b)` on Python ints). -/
def natDist (a b : Nat) : Nat := max a b - min a b

/-- Big-endian 16-bit word from two bytes. -/
def be16 (a b : Nat) : Nat := a * 256 + b

/-- Result record of `process_request_response_pair`. -/
structure PairResult where
  startreg : Nat
  regcount : Nat
  byte_count : Nat
  values : List ℚ
  mapped_values : List (String × ℚ)
deriving DecidableEq, Repr

/-- Embedding of `process_request_response_pair` in `modbusSniffer.py`
with `debug=True` (as at its call site): validate the request shape
(master address `0x9F`, function 3/4, start register in
`[0x2000, 0x2200]`, count in `[1, 64]`) and the response header, then
compare the response byte count with `regcount * 4` — a mismatch is
reported as a diagnostic and a deviation of more than 8 bytes aborts with
`None`; otherwise decode the payload sliced by the actual byte count,
abort with `None` when no values survive, and otherwise label and
plausibility-filter the values.  The `validate_float_block` call only
gates a debug print, recorded as a diagnostic. -/
def process_request_response_pair (request_data response_data : List Nat) :
    Option PairResult × List Diag :=
  if request_data.length < 8 ∨ response_data.length < 5 then (none, [])
  else if ¬(request_data.getD 0 0 = 0x9F ∧
      (request_data.getD 1 0 = 3 ∨ request_data.getD 1 0 = 4)) then (none, [])
  else
    let startreg := be16 (request_data.getD 2 0) (request_data.getD 3 0)
    let regcount := be16 (request_data.getD 4 0) (request_data.getD 5 0)
    if ¬(0x2000 ≤ startreg ∧ startreg ≤ 0x2200 ∧ 1 ≤ regcount ∧ regcount ≤ 64) then
      (none, [])
    else if response_data.getD 0 0 = 0x9F ∨
        ¬(response_data.getD 1 0 = 3 ∨ response_data.getD 1 0 = 4) then (none, [])
    else
      let byte_count := response_data.getD 2 0
      let expected := regcount * 4
      let mmDiags :=
        if byte_count ≠ expected then [Diag.lengthMismatch byte_count expected] else []
      if byte_count ≠ expected ∧ 8 < natDist byte_count expected then
        (none, mmDiags ++ [Diag.mismatchAbort byte_count expected])
      else
        let payload := (response_data.drop 3).take byte_count
        let vDiags :=
          if validate_float_block payload (3 / 10) then [] else [Diag.floatBlockInvalid]
        let values := process_modbus_payload payload none
        if values = [] then (none, mmDiags ++ vDiags)
        else
          let mapped := apply_plausibility_check (map_values_to_labels values startreg)
          (some ⟨startreg, regcount, byte_count, values, mapped.1⟩,
           mmDiags ++ vDiags ++ mapped.2)

/-- The correlator state: the most recent observed master request
(`last_request` in `modbusSniffer.py`; field access via `.get` with
default `0x2000` never misses because both keys are always present). -/
structure LastRequest where
  startreg : Nat
  regcount : Nat
deriving DecidableEq, Repr

/-- Embedding of `extract_and_process_response` in `modbusSniffer.py`.
Returns `(success, response_length, mapped_values)`.  A function code with
the high bit set is treated as a 5-byte error response (address, function,
one exception byte, two CRC bytes) carrying no values.  The expected-byte-
count block and the modulo warnings only print and are dropped; the
`int16` fallback on empty values is reachable only with `debug=True`,
matching the source. -/
def extract_and_process_response (buffer : List Nat) (position function_code : Nat)
    (last_request : Option LastRequest) (debug : Bool) :
    Bool × Nat × Option (List (String × ℚ)) :=
  if buffer.length ≤ position + 3 then (false, 0, none)
  else
    let address := buffer.getD position 0
    let func_code := buffer.getD (position + 1) 0
    let byte_count := buffer.getD (position + 2) 0
    if address = 0x9F then (false, 0, none)
    else if func_code ≠ function_code ∧ func_code ≠ (function_code ||| 0x80) then
      (false, 0, none)
    else if func_code &&& 0x80 ≠ 0 then (true, 5, none)
    else if byte_count = 0 ∨ 250 < byte_count then (false, 0, none)
    else
      let response_length := 3 + byte_count + 2
      if buffer.length < position + response_length then (false, 0, none)
      else
        let response_data := (buffer.drop position).take response_length
        let payload := (response_data.drop 3).take byte_count
        let fmt := if byte_count % 4 = 0 then some DataFormat.float32 else none
        let values := process_modbus_payload payload fmt
        let startreg :=
          match last_request with
          | some r => r.startreg
          | none => 0x2000
        if values = [] then
          if debug ∧ byte_count % 2 = 0 then
            let int_values := int16Decode payload
            if int_values ≠ [] then
              (true, response_length,
               some (apply_plausibility_check
                 (map_values_to_labels int_values startreg)).1)
            else (true, response_length, none)
          else (true, response_length, none)
        else
          (true, response_length,
           some (apply_plausibility_check (map_values_to_labels values startreg)).1)

/-- The state touched by the request-processing passage of the main loop
of `modbusSniffer.py`. -/
structure LoopState where
  buffer : List Nat
  lastRequest : Option LastRequest
  framesProcessed : Nat
deriving DecidableEq, Repr

/-- A master request found by the buffer scan of the main loop. -/
structure FoundRequest where
  position : Nat
  startreg : Nat
  regcount : Nat
  function_code : Nat
deriving DecidableEq, Repr

/-- Embedding of the error-response arm (the branch guarded by
`data_buffer[resp_start+1] & 0x80`) of the request-processing loop in the
main loop of `modbusSniffer.py`: when the frame directly after an 8-byte
request is addressed by a non-master device with the request's function
code or its error variant and the high bit is set, the loop prints the
exception code, deletes the buffer up to the end of the 5-byte error
response, counts the frame and breaks.  No measurement values are emitted
and `last_request` is not assigned anywhere on this path.  `none` marks
the control paths that leave this arm (they are handled elsewhere in the
loop and are not modelled here). -/
def mainLoopErrorResponseBranch (st : LoopState) (req : FoundRequest) :
    Option LoopState :=
  let resp_start := req.position + 8
  let expected_resp_length := 3 + req.regcount * 4 + 2
  if resp_start + expected_resp_length ≤ st.buffer.length then
    let a := st.buffer.getD resp_start 0
    let f := st.buffer.getD (resp_start + 1) 0
    if a ≠ 0x9F ∧ (f = req.function_code ∨ f = (req.function_code ||| 0x80)) then
      if f &&& 0x80 ≠ 0 then
        if resp_start + 5 ≤ st.buffer.length then
          some
            { buffer := st.buffer.drop (resp_start + 5)
              lastRequest := st.lastRequest
              framesProcessed := st.framesProcessed + 1 }
        else none
      else none
    else none
  else none

/-- Buffer capacity `MAX_BUFFER_SIZE` of the main loop. -/
def MAX_BUFFER_SIZE : Nat := 4096

/-- The ingest step of the main loop: append the newly read bytes, then
enforce the capacity by keeping only the newest `MAX_BUFFER_SIZE` bytes
(`data_buffer[-MAX_BUFFER_SIZE:]`). -/
def ingestStep (buf data : List Nat) : List Nat :=
  let b := buf ++ data
  if MAX_BUFFER_SIZE < b.length then b.drop (b.length - MAX_BUFFER_SIZE) else b

/-- The end-of-iteration trim of the main loop: when no frame was
processed and the buffer holds more than `MAX_BUFFER_SIZE / 2` bytes, the
oldest half (`data_buffer[len//2:]` keeps the rest) is discarded. -/
def trimHalfStep (framesProcessed : Nat) (buf : List Nat) : List Nat :=
  if framesProcessed = 0 ∧ MAX_BUFFER_SIZE / 2 < buf.length then
    buf.drop (buf.length / 2)
  else buf

/-- Concrete request frame used to exercise the length-mismatch path: a
read of 21 registers starting at `0x2000` (the CRC bytes are not inspected
by `process_request_response_pair`). -/
def c6wreq : List Nat := [0x9F, 3, 0x20, 0x00, 0x00, 0x15, 0, 0]

/-- Concrete response frame with byte count 80 (20 registers) instead of
the expected 84, followed by 20 copies of a decodable float chunk and two
CRC bytes. -/
def c6wresp : List Nat :=
  [1, 3, 80] ++ (List.replicate 20 [0x60, 0x00, 0x45, 0x14]).flatten ++ [0, 0]

theorem crc16_length (data : List Nat) : (crc16 data).length = 2 := rfl

/-- C1 (counterexample): the CRC round trip as stated fails for the empty
byte sequence — `is_valid_crc` rejects every frame shorter than
`MIN_FRAME_SIZE = 6` bytes, and `[] ++ crc16 []` is only 2 bytes long. -/
theorem c1_counterexample : is_valid_crc (([] : List Nat) ++ crc16 []) = false := by
  decide

/-- C1 (amended): for every byte sequence of at least 4 bytes, appending
its CRC16 (low byte first) yields a frame that `is_valid_crc` accepts. -/
theorem c1_crc_roundtrip (b : List Nat) (h : 4 ≤ b.length) :
    is_valid_crc (b ++ crc16 b) = true := by
  have hc : (crc16 b).length = 2 := crc16_length b
  have hlen : (b ++ crc16 b).length = b.length + 2 := by
    simp [List.length_append, hc]
  unfold is_valid_crc
  rw [hlen, if_neg (by omega)]
  have h2 : b.length + 2 - 2 = b.length := by omega
  rw [h2, List.drop_left, List.take_left]
  simp

/-- C1 (witness): the amended round trip at the concrete request prefix
`01 03 00 00`. -/
theorem c1_crc_roundtrip_witness :
    4 ≤ ([1, 3, 0, 0] : List Nat).length ∧
      is_valid_crc ([1, 3, 0, 0] ++ crc16 [1, 3, 0, 0]) = true :=
  ⟨by decide, c1_crc_roundtrip [1, 3, 0, 0] (by decide)⟩

/-- C7 (counterexample): a frame whose trailing checksum is the CRC16 of
the data read high byte first (and which differs from the low-byte-first
reading) is rejected by `is_valid_crc` — there is no big-endian fallback. -/
theorem c7_counterexample :
    (crc16 [1, 3, 0, 0]).reverse ≠ crc16 [1, 3, 0, 0] ∧
      is_valid_crc ([1, 3, 0, 0] ++ (crc16 [1, 3, 0, 0]).reverse) = false := by
  decide

/-- C7 (amended): `is_valid_crc` accepts only the little-endian checksum
reading; whenever the byte-swapped checksum differs from the little-endian
one, the frame carrying the big-endian reading is rejected. -/
theorem c7_no_bigendian_fallback (b : List Nat) (h : 4 ≤ b.length)
    (hne : (crc16 b).reverse ≠ crc16 b) :
    is_valid_crc (b ++ (crc16 b).reverse) = false := by
  have hc : (crc16 b).reverse.length = 2 := by simp [crc16_length]
  have hlen : (b ++ (crc16 b).reverse).length = b.length + 2 := by
    simp [List.length_append, hc]
  unfold is_valid_crc
  rw [hlen, if_neg (by omega)]
  have h2 : b.length + 2 - 2 = b.length := by omega
  rw [h2, List.drop_left, List.take_left]
  simp only [beq_eq_false_iff_ne, ne_eq]
  exact hne

/-- C7 (witness): the amended statement at the concrete data
`01 03 00 00`. -/
theorem c7_no_bigendian_fallback_witness :
    4 ≤ ([1, 3, 0, 0] : List Nat).length ∧
      is_valid_crc ([1, 3, 0, 0] ++ (crc16 [1, 3, 0, 0]).reverse) = false :=
  ⟨by decide, c7_no_bigendian_fallback [1, 3, 0, 0] (by decide) (by decide)⟩

unseal Rat.mul Rat.add Rat.sub Rat.inv in
/-- C2 (counterexample): the worked example fails on the code — decoding
the chunk `45 14 60 00` with `parse_modbus_float_inverse` word-swaps it to
the bit pattern `0x60004514`, whose value is about `3.7e19`, outside the
sanity band, so the decoder returns `None` rather than a value near
`230.7`. -/
theorem c2_counterexample :
    parse_modbus_float_inverse [0x45, 0x14, 0x60, 0x00] 0 = none := by
  decide

unseal Rat.mul Rat.add Rat.sub Rat.inv in
/-- C2 (amended): the chunk `45 14 60 00` is rejected (`None`) by the
register value decoder; it is the chunk with the halves already swapped,
`60 00 45 14`, that decodes to exactly `2374.0`, and labelling that value
at the phase-A voltage register `0x2006` yields `Ua = 237.4` after the
`0.1` scale — not approximately `230.7`. -/
theorem c2_amended :
    parse_modbus_float_inverse [0x45, 0x14, 0x60, 0x00] 0 = none ∧
      parse_modbus_float_inverse [0x60, 0x00, 0x45, 0x14] 0 = some 2374 ∧
      map_values_to_labels [2374] 0x2006 = [("Ua", 1187 / 5)] := by
  decide


theorem parse_sniffer_hex_short (l : List Nat) (h : l.length < 4) :
    parse_sniffer_hex l = [] := by
  match l with
  | [] => rfl
  | [a] => rfl
  | [a, b] => rfl
  | [a, b, c] => rfl
  | a :: b :: c :: d :: r => simp [List.length_cons] at h; omega

theorem parse_sniffer_hex_append :
    ∀ (bs : List Nat), bs.length % 4 = 0 → ∀ extra : List Nat, extra.length < 4 →
      parse_sniffer_hex (bs ++ extra) = parse_sniffer_hex bs
  | [], _, extra, hex => by
    rw [List.nil_append, parse_sniffer_hex_short extra hex]; rfl
  | [a], h4, _, _ => by simp at h4
  | [a, b], h4, _, _ => by simp at h4
  | [a, b, c], h4, _, _ => by simp at h4
  | a :: b :: c :: d :: rest, h4, extra, hex => by
    have h4r : rest.length % 4 = 0 := by
      simp [List.length_cons] at h4; omega
    have ih := parse_sniffer_hex_append rest h4r extra hex
    simp only [List.cons_append, parse_sniffer_hex, List.append_eq, ih]
termination_by bs => bs.length

/-- C8 (counterexample): a 6-byte payload under format auto-detection is
decoded entirely as 16-bit integers in 2-byte strides (three values), not
in 4-byte strides with a truncated final partial chunk (which would give
`6 / 4 = 1` value). -/
theorem c8_counterexample :
    process_modbus_payload [0x11, 0x22, 0x33, 0x44, 0x55, 0x66] none =
        [4386, 13124, 21862] ∧
      (process_modbus_payload [0x11, 0x22, 0x33, 0x44, 0x55, 0x66] none).length ≠
        (cleanPayload [0x11, 0x22, 0x33, 0x44, 0x55, 0x66]).length / 4 := by
  decide

/-- C8 (amended): `parse_sniffer_hex` consumes its input strictly in
4-byte strides and truncates a trailing partial chunk, and the payload
decoder does so too whenever the float32 format is in force (one value per
4-byte stride of the cleaned payload); but under auto-detection a cleaned
payload whose length is not a multiple of 4 is decoded wholly as 16-bit
big-endian integers in 2-byte strides instead of being truncated. -/
theorem c8_amended :
    (∀ (bs extra : List Nat), bs.length % 4 = 0 → extra.length < 4 →
        parse_sniffer_hex (bs ++ extra) = parse_sniffer_hex bs) ∧
      (∀ payload : List Nat, 2 ≤ payload.length →
        (process_modbus_payload payload (some DataFormat.float32)).length =
          (cleanPayload payload).length / 4) ∧
      (∀ payload : List Nat, 2 ≤ payload.length →
        (cleanPayload payload).length % 4 ≠ 0 →
        process_modbus_payload payload none = int16Decode (cleanPayload payload)) := by
  refine ⟨fun bs extra h4 hex => parse_sniffer_hex_append bs h4 extra hex, ?_, ?_⟩
  · intro payload hlen
    simp only [process_modbus_payload]
    rw [if_neg (by omega)]
    simp [List.length_map, List.length_range]
  · intro payload hlen h4
    simp only [process_modbus_payload]
    rw [if_neg (by omega), if_neg h4]

/-- C8 (witness): the amended statement instantiated at concrete inputs. -/
theorem c8_amended_witness :
    parse_sniffer_hex ([] ++ [17]) = parse_sniffer_hex [] ∧
      (process_modbus_payload [0, 0] (some DataFormat.float32)).length =
        (cleanPayload [0, 0]).length / 4 ∧
      process_modbus_payload [17, 34, 51, 68, 85, 102] none =
        int16Decode (cleanPayload [17, 34, 51, 68, 85, 102]) :=
  ⟨c8_amended.1 [] [17] (by decide) (by decide),
   c8_amended.2.1 [0, 0] (by decide),
   c8_amended.2.2 [17, 34, 51, 68, 85, 102] (by decide) (by decide)⟩

/-- C3 (confirmed): the register value decoder contract.  On any 4-byte
chunk `[A, B, C, D]` the decoder interprets the permuted bytes
`[C, D, A, B]` as a big-endian binary32 value; it returns `None` exactly
when that value is NaN, infinite, or not strictly inside the sanity band
`(-1e10, 1e10)`; a nonzero in-band value strictly inside `(-1e-10, 1e-10)`
is returned as exactly `0.0`; every other in-band value is returned
unchanged. -/
theorem c3_decoder_contract (a b c d : Nat)
    (_ha : a < 256) (_hb : b < 256) (_hc : c < 256) (_hd : d < 256) :
    (parse_modbus_float_inverse [a, b, c, d] 0 = none ↔
      f32OfBytes [c, d, a, b] = F32.nan ∨
        (∃ s, f32OfBytes [c, d, a, b] = F32.inf s) ∨
        (∃ q : ℚ, f32OfBytes [c, d, a, b] = F32.val q ∧
          ¬(-(10 ^ 10 : ℚ) < q ∧ q < 10 ^ 10))) ∧
      (∀ q : ℚ, f32OfBytes [c, d, a, b] = F32.val q →
        (-(10 ^ 10 : ℚ) < q ∧ q < 10 ^ 10) →
        q ≠ 0 → -(1 / 10 ^ 10 : ℚ) < q → q < 1 / 10 ^ 10 →
        parse_modbus_float_inverse [a, b, c, d] 0 = some 0) ∧
      (∀ q : ℚ, f32OfBytes [c, d, a, b] = F32.val q →
        (-(10 ^ 10 : ℚ) < q ∧ q < 10 ^ 10) →
        ¬((-(1 / 10 ^ 10 : ℚ) < q ∧ q < 1 / 10 ^ 10) ∧ q ≠ 0) →
        parse_modbus_float_inverse [a, b, c, d] 0 = some q) := by
  have hun : parse_modbus_float_inverse [a, b, c, d] 0 =
      (match f32OfBytes [c, d, a, b] with
       | F32.nan => none
       | F32.inf _ => none
       | F32.val q =>
         if ¬(-(10 ^ 10 : ℚ) < q ∧ q < 10 ^ 10) then none
         else if (-(1 / 10 ^ 10 : ℚ) < q ∧ q < 1 / 10 ^ 10) ∧ q ≠ 0 then some 0
         else some q) := rfl
  refine ⟨?_, ?_, ?_⟩
  · rw [hun]
    rcases hv : f32OfBytes [c, d, a, b] with _ | s | q
    · simp [hv]
    · simp [hv]
    · simp only [hv]
      by_cases hband : (-(10 ^ 10 : ℚ) < q ∧ q < 10 ^ 10)
      · rw [if_neg (not_not_intro hband)]
        constructor
        · intro h
          split at h
          · exact absurd h (by simp)
          · exact absurd h (by simp)
        · rintro (h | ⟨s, h⟩ | ⟨q', hq', hnb⟩)
          · exact absurd h (by simp)
          · exact absurd h (by simp)
          · rw [F32.val.injEq] at hq'
            subst hq'
            exact absurd hband hnb
      · rw [if_pos hband]
        constructor
        · intro _
          exact Or.inr (Or.inr ⟨q, rfl, hband⟩)
        · intro _
          rfl
  · intro q hq h1 h2 h3 h4
    rw [hun, hq]
    show (if ¬(-(10 ^ 10 : ℚ) < q ∧ q < 10 ^ 10) then none
      else if (-(1 / 10 ^ 10 : ℚ) < q ∧ q < 1 / 10 ^ 10) ∧ q ≠ 0 then some 0
      else some q) = some 0
    rw [if_neg (not_not_intro h1), if_pos ⟨⟨h3, h4⟩, h2⟩]
  · intro q hq h1 h2
    rw [hun, hq]
    show (if ¬(-(10 ^ 10 : ℚ) < q ∧ q < 10 ^ 10) then none
      else if (-(1 / 10 ^ 10 : ℚ) < q ∧ q < 1 / 10 ^ 10) ∧ q ≠ 0 then some 0
      else some q) = some q
    rw [if_neg (not_not_intro h1), if_neg h2]

unseal Rat.mul Rat.add Rat.sub Rat.inv in
/-- C3 (witness): the contract instantiated at the all-zero chunk, whose
permuted big-endian value is exactly zero, and which the decoder returns
unchanged. -/
theorem c3_decoder_contract_witness :
    parse_modbus_float_inverse [0, 0, 0, 0] 0 = some 0 :=
  (c3_decoder_contract 0 0 0 0 (by decide) (by decide) (by decide)
        (by decide)).2.2 0 (by decide) (by decide) (by decide)

theorem lookup_key_not_register (k : String) (lo hi : ℚ)
    (h : plausibility_ranges.lookup k = some (lo, hi)) :
    startsWithRegister k = false := by
  simp only [plausibility_ranges, List.lookup] at h
  repeat' split at h
  any_goals exact Option.noConfusion h
  all_goals
    rename_i heq
    have hk := eq_of_beq heq
    subst hk
    decide

theorem charListHasStart_append :
    ∀ (p s : List Char), charListHasStart p (p ++ s) = true
  | [], _ => rfl
  | c :: p, s => by
    simp [charListHasStart, charListHasStart_append p s]

theorem startsWithRegister_mkRegisterKey (addr : Nat) :
    startsWithRegister (mkRegisterKey addr) = true := by
  show charListHasStart "Register".data ("Register".data ++ _) = true
  exact charListHasStart_append _ _

unseal Rat.mul Rat.add Rat.sub Rat.inv in
/-- C4 (confirmed): the plausibility clamp.  The band table assigns the
claimed physical bands (voltage 0–500, current 0–100, power and reactive
power -50000–50000, power factor -1–1, frequency 45–65); the filter is
total and length-preserving (never a failure); every entry whose label has
a band is kept unchanged when inside the band and replaced by exactly
`0.0` with a diagnostic event when outside; and the voltage values `-5.0`
and `900.0` each become `0.0` with exactly one diagnostic. -/
theorem c4_plausibility_clamp :
    (∀ k ∈ (["Uab", "Ubc", "Uca", "Ua", "Ub", "Uc"] : List String),
        plausibility_ranges.lookup k = some (0, 500)) ∧
      (∀ k ∈ (["Ia", "Ib", "Ic"] : List String),
        plausibility_ranges.lookup k = some (0, 100)) ∧
      (∀ k ∈ (["Pt", "Pa", "Pb", "Pc", "Qt", "Qa", "Qb", "Qc"] : List String),
        plausibility_ranges.lookup k = some (-50000, 50000)) ∧
      (∀ k ∈ (["PFt", "PFa", "PFb", "PFc"] : List String),
        plausibility_ranges.lookup k = some (-1, 1)) ∧
      plausibility_ranges.lookup "Freq" = some (45, 65) ∧
      (∀ kvs : List (String × ℚ),
        (apply_plausibility_check kvs).1.length = kvs.length) ∧
      (∀ (kvs : List (String × ℚ)) (i : Nat) (k : String) (v lo hi : ℚ),
        kvs[i]? = some (k, v) →
        plausibility_ranges.lookup k = some (lo, hi) →
        ((lo ≤ v ∧ v ≤ hi) → (apply_plausibility_check kvs).1[i]? = some (k, v)) ∧
          (¬(lo ≤ v ∧ v ≤ hi) →
            (apply_plausibility_check kvs).1[i]? = some (k, 0) ∧
              Diag.implausible k v lo hi ∈ (apply_plausibility_check kvs).2)) ∧
      apply_plausibility_check [("Ua", -5)] =
        ([("Ua", 0)], [Diag.implausible "Ua" (-5) 0 500]) ∧
      apply_plausibility_check [("Ua", 900)] =
        ([("Ua", 0)], [Diag.implausible "Ua" 900 0 500]) := by
  refine ⟨by decide, by decide, by decide, by decide, by decide, ?_, ?_, by decide,
    by decide⟩
  · intro kvs
    simp [apply_plausibility_check]
  · intro kvs i k v lo hi hget hlk
    have hnr : startsWithRegister k = false := lookup_key_not_register k lo hi hlk
    constructor
    · intro hin
      simp only [apply_plausibility_check, List.getElem?_map, hget, Option.map_some]
      simp [checkEntry, hnr, hlk, hin]
    · intro hout
      constructor
      · simp only [apply_plausibility_check, List.getElem?_map, hget, Option.map_some]
        simp [checkEntry, hnr, hlk, hout]
      · have hmem : (k, v) ∈ kvs := List.getElem?_mem hget
        refine List.mem_filterMap.mpr ⟨(k, v), hmem, ?_⟩
        simp [checkEntry, hnr, hlk, hout]

/-- C4 (witness): the clamp theorem applied to the out-of-band voltage
entry `Ua = 600`. -/
theorem c4_plausibility_clamp_witness :
    (apply_plausibility_check [("Ua", 600)]).1[0]? = some ("Ua", 0) ∧
      Diag.implausible "Ua" 600 0 500 ∈ (apply_plausibility_check [("Ua", 600)]).2 :=
  (c4_plausibility_clamp.2.2.2.2.2.2.1 [("Ua", 600)] 0 "Ua" 600 0 500 (by decide)
      (by decide)).2 (by decide)

/-- C10 (confirmed): the plausibility filter passes generically named
values through unchecked — every entry whose key starts with `Register` is
returned unchanged at its position, with no range clamp and no diagnostic,
whatever its value; and such keys are exactly what `map_values_to_labels`
produces for a start register outside the register map or for indices
beyond the label table. -/
theorem c10_register_passthrough :
    (∀ (kvs : List (String × ℚ)) (i : Nat) (k : String) (v : ℚ),
        kvs[i]? = some (k, v) → startsWithRegister k = true →
        (apply_plausibility_check kvs).1[i]? = some (k, v)) ∧
      (∀ (k : String) (v : ℚ), startsWithRegister k = true →
        apply_plausibility_check [(k, v)] = ([(k, v)], [])) ∧
      (∀ (values : List ℚ) (start : Nat), REGISTER_MAP.lookup start = none →
        ∀ p ∈ map_values_to_labels values start, startsWithRegister p.1 = true) ∧
      (∀ (values : List ℚ) (start : Nat) (lbl : String),
        REGISTER_MAP.lookup start = some lbl →
        ∀ (i : Nat) (k : String) (v : ℚ),
          (map_values_to_labels values start)[i]? = some (k, v) →
          ¬(labelStartIndex lbl + i < LABELS.length) →
          startsWithRegister k = true) := by
  refine ⟨?_, ?_, ?_, ?_⟩
  · intro kvs i k v hget hsw
    simp only [apply_plausibility_check, List.getElem?_map, hget, Option.map_some]
    simp [checkEntry, hsw]
  · intro k v hsw
    simp [apply_plausibility_check, checkEntry, hsw]
  · intro values start hlk p hp
    simp only [map_values_to_labels, hlk] at hp
    obtain ⟨⟨i, v⟩, hmem, rfl⟩ := List.mem_map.mp hp
    exact startsWithRegister_mkRegisterKey _
  · intro values start lbl hlk i k v hget hout
    simp only [map_values_to_labels, hlk, List.getElem?_map, List.getElem?_enum]
      at hget
    cases hv : values[i]? with
    | none => rw [hv] at hget; exact Option.noConfusion hget
    | some w =>
      rw [hv] at hget
      simp only [Option.map_some'] at hget
      rw [dif_neg hout] at hget
      injection hget with h2
      injection h2 with hk hv2
      subst hk
      exact startsWithRegister_mkRegisterKey _

/-- C10 (witness): a generic `Register2000` entry with a value outside
every physical band passes through unchanged with no diagnostic. -/
theorem c10_register_passthrough_witness :
    apply_plausibility_check [("Register2000", 10 ^ 12)] =
      ([("Register2000", 10 ^ 12)], []) :=
  c10_register_passthrough.2.1 "Register2000" (10 ^ 12) (by decide)

/-- C5 (counterexample): processing the error response `01 83 02` that
follows a captured request does not clear the pending request — after the
error-response arm of the main loop runs, `last_request` still holds the
previous request instead of `none`. -/
theorem c5_counterexample :
    mainLoopErrorResponseBranch
        ⟨[0x9F, 3, 0x20, 0, 0, 1, 0x0A, 0x0B, 1, 0x83, 2, 0, 0, 0, 0, 0, 0],
          some ⟨0x2004, 21⟩, 0⟩
        ⟨0, 0x2000, 1, 3⟩ =
      some ⟨[0, 0, 0, 0], some ⟨0x2004, 21⟩, 1⟩ := by
  decide

/-- C5 (amended): a validated response whose function code has the high
bit set is classified as a 5-byte error response (address, function, one
exception byte, two CRC bytes) and produces no mapped values; and the
error-response arm of the main loop consumes the frame and counts it but
leaves the pending request unchanged — it is not cleared. -/
theorem c5_error_response :
    (∀ (buffer : List Nat) (position function_code : Nat)
        (last_request : Option LastRequest) (debug : Bool),
      position + 3 < buffer.length →
      buffer.getD position 0 ≠ 0x9F →
      (buffer.getD (position + 1) 0 = function_code ∨
        buffer.getD (position + 1) 0 = function_code ||| 0x80) →
      buffer.getD (position + 1) 0 &&& 0x80 ≠ 0 →
      extract_and_process_response buffer position function_code last_request debug =
        (true, 5, none)) ∧
      (∀ (st : LoopState) (req : FoundRequest) (st' : LoopState),
        mainLoopErrorResponseBranch st req = some st' →
        st'.lastRequest = st.lastRequest ∧
          st'.framesProcessed = st.framesProcessed + 1 ∧
          st'.buffer = st.buffer.drop (req.position + 8 + 5)) := by
  constructor
  · intro buffer pos fc lr debug hlen haddr hfc hbit
    simp only [extract_and_process_response]
    rw [if_neg (by omega), if_neg haddr,
      if_neg (fun hand => by rcases hfc with h | h
                             · exact hand.1 h
                             · exact hand.2 h),
      if_pos hbit]
  · intro st req st' h
    simp only [mainLoopErrorResponseBranch] at h
    split_ifs at h with h1 h2 h3 h4
    cases h
    exact ⟨rfl, rfl, rfl⟩

/-- C5 (witness): the amended statement at a concrete error frame and at
the concrete loop state of the captured buffer. -/
theorem c5_error_response_witness :
    extract_and_process_response [1, 0x83, 2, 0, 0] 0 3 none true =
        (true, 5, none) ∧
      ((⟨[0, 0, 0, 0], some ⟨0x2004, 21⟩, 1⟩ : LoopState).lastRequest =
          (⟨[0x9F, 3, 0x20, 0, 0, 1, 0x0A, 0x0B, 1, 0x83, 2, 0, 0, 0, 0, 0, 0],
            some ⟨0x2004, 21⟩, 0⟩ : LoopState).lastRequest ∧
        (⟨[0, 0, 0, 0], some ⟨0x2004, 21⟩, 1⟩ : LoopState).framesProcessed =
          (⟨[0x9F, 3, 0x20, 0, 0, 1, 0x0A, 0x0B, 1, 0x83, 2, 0, 0, 0, 0, 0, 0],
            some ⟨0x2004, 21⟩, 0⟩ : LoopState).framesProcessed + 1 ∧
        (⟨[0, 0, 0, 0], some ⟨0x2004, 21⟩, 1⟩ : LoopState).buffer =
          (⟨[0x9F, 3, 0x20, 0, 0, 1, 0x0A, 0x0B, 1, 0x83, 2, 0, 0, 0, 0, 0, 0],
            some ⟨0x2004, 21⟩, 0⟩ : LoopState).buffer.drop (0 + 8 + 5)) :=
  ⟨c5_error_response.1 [1, 0x83, 2, 0, 0] 0 3 none true (by decide) (by decide)
      (Or.inr (by decide)) (by decide),
   c5_error_response.2
      ⟨[0x9F, 3, 0x20, 0, 0, 1, 0x0A, 0x0B, 1, 0x83, 2, 0, 0, 0, 0, 0, 0],
        some ⟨0x2004, 21⟩, 0⟩
      ⟨0, 0x2000, 1, 3⟩
      ⟨[0, 0, 0, 0], some ⟨0x2004, 21⟩, 1⟩ (by decide)⟩

unseal Rat.mul Rat.add Rat.sub Rat.inv in
/-- C6 (counterexample): a correlated pair whose byte count deviates from
`register_count * 4` by more than 8 bytes is not decoded — the request
asks for 21 registers (84 payload bytes) but the response carries only 4,
and `process_request_response_pair` aborts with `None` even though that
4-byte payload decodes to the nonempty value list `[2374.0]`. -/
theorem c6_counterexample :
    process_request_response_pair [0x9F, 3, 0x20, 0x00, 0x00, 0x15, 0xAA, 0xBB]
        [1, 3, 4, 0x60, 0x00, 0x45, 0x14, 0xCC, 0xDD] =
      (none, [Diag.lengthMismatch 4 84, Diag.mismatchAbort 4 84]) ∧
      process_modbus_payload [0x60, 0x00, 0x45, 0x14] none = [2374] := by
  decide

/-- C6 (amended): for a correlated request/response pair whose byte count
differs from `register_count * 4` by at most 8 bytes, processing flags the
mismatch as a diagnostic and still decodes using the actual byte count:
the outcome is `None` exactly when the payload sliced by the actual byte
count decodes to no values, and any produced result carries that byte
count and exactly those decoded values.  (A deviation of more than
8 bytes instead aborts with `None`, as the counterexample shows; neither
path raises an error.) -/
theorem c6_length_mismatch (req resp : List Nat) (sr rc bc : Nat)
    (hreq : 8 ≤ req.length) (hresp : 5 ≤ resp.length)
    (haddr : req.getD 0 0 = 0x9F)
    (hfc : req.getD 1 0 = 3 ∨ req.getD 1 0 = 4)
    (hsr : be16 (req.getD 2 0) (req.getD 3 0) = sr)
    (hrc : be16 (req.getD 4 0) (req.getD 5 0) = rc)
    (hsrlo : 0x2000 ≤ sr) (hsrhi : sr ≤ 0x2200)
    (hrclo : 1 ≤ rc) (hrchi : rc ≤ 64)
    (hraddr : resp.getD 0 0 ≠ 0x9F)
    (hrfc : resp.getD 1 0 = 3 ∨ resp.getD 1 0 = 4)
    (hbc : resp.getD 2 0 = bc)
    (hmm : bc ≠ rc * 4) (hclose : natDist bc (rc * 4) ≤ 8) :
    Diag.lengthMismatch bc (rc * 4) ∈ (process_request_response_pair req resp).2 ∧
      ((process_request_response_pair req resp).1 = none ↔
        process_modbus_payload ((resp.drop 3).take bc) none = []) ∧
      (∀ r : PairResult, (process_request_response_pair req resp).1 = some r →
        r.byte_count = bc ∧
          r.values = process_modbus_payload ((resp.drop 3).take bc) none) := by
  subst hsr hrc hbc
  have hg1 : ¬(req.length < 8 ∨ resp.length < 5) := by omega
  have hg2 : ¬¬(req.getD 0 0 = 0x9F ∧
      (req.getD 1 0 = 3 ∨ req.getD 1 0 = 4)) := not_not_intro ⟨haddr, hfc⟩
  have hg3 : ¬¬(0x2000 ≤ be16 (req.getD 2 0) (req.getD 3 0) ∧
      be16 (req.getD 2 0) (req.getD 3 0) ≤ 0x2200 ∧
      1 ≤ be16 (req.getD 4 0) (req.getD 5 0) ∧
      be16 (req.getD 4 0) (req.getD 5 0) ≤ 64) :=
    not_not_intro ⟨hsrlo, hsrhi, hrclo, hrchi⟩
  have hg4 : ¬(resp.getD 0 0 = 0x9F ∨
      ¬(resp.getD 1 0 = 3 ∨ resp.getD 1 0 = 4)) := by
    push_neg
    exact ⟨hraddr, hrfc⟩
  have hg5 : ¬(resp.getD 2 0 ≠ be16 (req.getD 4 0) (req.getD 5 0) * 4 ∧
      8 < natDist (resp.getD 2 0) (be16 (req.getD 4 0) (req.getD 5 0) * 4)) := by
    simp only [natDist] at hclose ⊢
    omega
  simp only [process_request_response_pair, if_neg hg1, if_neg hg2, if_neg hg3,
    if_neg hg4, if_neg hg5, if_pos hmm]
  rw [show resp.getD 2 0 = resp[2]?.getD 0 from List.getD_eq_getElem?_getD resp 2 0]
  by_cases hv : process_modbus_payload
      ((resp.drop 3).take (resp[2]?.getD 0)) none = []
  · rw [if_pos hv]
    refine ⟨by simp, by simp [hv], ?_⟩
    intro r hr
    exact Option.noConfusion hr
  · rw [if_neg hv]
    refine ⟨by simp, by simp [hv], ?_⟩
    intro r hr
    cases Option.some.inj hr
    exact ⟨rfl, rfl⟩

/-- C6 (witness): the amended statement at a concrete pair whose byte
count 80 deviates from the expected 84 by 4 bytes. -/
theorem c6_length_mismatch_witness :
    Diag.lengthMismatch 80 (21 * 4) ∈
        (process_request_response_pair c6wreq c6wresp).2 ∧
      ((process_request_response_pair c6wreq c6wresp).1 = none ↔
        process_modbus_payload ((c6wresp.drop 3).take 80) none = []) ∧
      (∀ r : PairResult, (process_request_response_pair c6wreq c6wresp).1 = some r →
        r.byte_count = 80 ∧
          r.values = process_modbus_payload ((c6wresp.drop 3).take 80) none) :=
  c6_length_mismatch c6wreq c6wresp 0x2000 21 80 (by decide) (by decide) (by decide)
    (Or.inl (by decide)) (by decide) (by decide) (by decide) (by decide) (by decide)
    (by decide) (by decide) (Or.inl (by decide)) (by decide) (by decide) (by decide)

/-- C9 (confirmed): the bounded-buffer invariant.  After every ingest step
the buffer never exceeds the capacity of 4096 bytes; when the appended
input would exceed it, the oldest bytes are dropped keeping exactly the
last 4096; when no frame was processed and the buffer exceeds half the
capacity, the oldest half is discarded; and a stream of arbitrarily many
arbitrary chunks, interleaved with any processing that only removes bytes,
never grows the buffer beyond its capacity. -/
theorem c9_bounded_buffer :
    (∀ buf data : List Nat, (ingestStep buf data).length ≤ MAX_BUFFER_SIZE) ∧
      (∀ buf data : List Nat, MAX_BUFFER_SIZE < (buf ++ data).length →
        ingestStep buf data =
            (buf ++ data).drop ((buf ++ data).length - MAX_BUFFER_SIZE) ∧
          (ingestStep buf data).length = MAX_BUFFER_SIZE) ∧
      (∀ buf : List Nat, MAX_BUFFER_SIZE / 2 < buf.length →
        trimHalfStep 0 buf = buf.drop (buf.length / 2)) ∧
      (∀ process : List Nat → List Nat,
        (∀ b, (process b).length ≤ b.length) →
        ∀ (chunks : List (List Nat)) (init : List Nat),
          init.length ≤ MAX_BUFFER_SIZE →
          (chunks.foldl (fun b d => process (ingestStep b d)) init).length ≤
            MAX_BUFFER_SIZE) := by
  have hlen : ∀ buf data : List Nat,
      (ingestStep buf data).length ≤ MAX_BUFFER_SIZE := by
    intro buf data
    simp only [ingestStep]
    split
    · simp only [List.length_drop]
      omega
    · omega
  refine ⟨hlen, ?_, ?_, ?_⟩
  · intro buf data h
    refine ⟨?_, ?_⟩
    · simp only [ingestStep]
      rw [if_pos h]
    · simp only [ingestStep]
      rw [if_pos h]
      simp only [List.length_drop]
      omega
  · intro buf h
    simp [trimHalfStep, h]
  · intro process hp chunks
    induction chunks with
    | nil => intro init hinit; simpa using hinit
    | cons d rest ih =>
      intro init hinit
      simp only [List.foldl_cons]
      exact ih _ (le_trans (hp _) (hlen _ _))

/-- C9 (witness): the invariant exercised at concrete data — an oversize
append is truncated to the newest 4096 bytes, an oversize idle buffer
loses its oldest half, and a concrete folded stream stays within the
capacity. -/
theorem c9_bounded_buffer_witness :
    (ingestStep [] (List.replicate 5000 0)).length ≤ MAX_BUFFER_SIZE ∧
      ingestStep [] (List.replicate 5000 0) =
        ([] ++ List.replicate 5000 0).drop
          (([] ++ List.replicate 5000 0).length - MAX_BUFFER_SIZE) ∧
      trimHalfStep 0 (List.replicate 2049 0) =
        (List.replicate 2049 0).drop ((List.replicate 2049 0).length / 2) ∧
      ((([[1, 2, 3]] : List (List Nat)).foldl
          (fun b d => id (ingestStep b d)) []).length ≤ MAX_BUFFER_SIZE) :=
  ⟨c9_bounded_buffer.1 [] (List.replicate 5000 0),
   (c9_bounded_buffer.2.1 [] (List.replicate 5000 0)
      (by rw [List.nil_append, List.length_replicate]; decide)).1,
   c9_bounded_buffer.2.2.1 (List.replicate 2049 0)
      (by rw [List.length_replicate]; decide),
   c9_bounded_buffer.2.2.2 id (fun b => le_refl _) [[1, 2, 3]] [] (by simp)⟩
